import Mathlib

/-!
Verification development for the A-pen ai-client library.

We give a shallow embedding of the two provider adapters (the OpenAI-shaped
client in client/openai/client.go and the Gemini-shaped client in
client/gemini/client.go), and of the two service stores (store/ocr.go and
store/article.go).  External collaborators (the provider SDK calls, the image
fetcher, the message queue) are injected as function parameters, exactly as
they are injected interfaces in the Go code.  The JSON utilities
(tidwall/sjson and encoding/json) and the models/prompt catalog (whose Go
source is not part of the audited tree) are modelled from the specification's
collaborator contracts; each such definition carries a doc comment saying so.
-/

namespace Models

/-- `models.AIChatMessage` (also named `Message` in a sibling version of the
models package): system prompt, user text and ordered image references. -/
structure AIChatMessage where
  systemPrompt : String
  text : String
  imageUrls : List String

/-- `models.ResponseFormat`: a string type with two constants. -/
abbrev ResponseFormat := String

/-- `models.ResponseFormatJSON`. -/
def ResponseFormatJSON : ResponseFormat := "json"

/-- `models.ResponseFormatText`. -/
def ResponseFormatText : ResponseFormat := "text"

/-- `models.AIClientOptions`: token budget, per-call model override and
desired response format. -/
structure AIClientOptions where
  maxTokens : Int
  model : String
  responseFormat : ResponseFormat

/-- `models.PlatformType`: a string type with constants "apen", "nurse",
"phar". -/
abbrev PlatformType := String

/-- `models.PlatformTypeApen` (doctor). -/
def PlatformTypeApen : PlatformType := "apen"

/-- `models.PlatformTypeNurse`. -/
def PlatformTypeNurse : PlatformType := "nurse"

/-- `models.PlatformTypePhar`. -/
def PlatformTypePhar : PlatformType := "phar"

end Models

/-- A JSON value: the abstract shape of a JSON text.  Objects are ordered
key/value lists, as in the raw text. -/
inductive Json where
  | null : Json
  | bool (b : Bool) : Json
  | num (n : Int) : Json
  | str (s : String) : Json
  | arr (items : List Json) : Json
  | obj (fields : List (String × Json)) : Json

/-- A raw text result from an adapter, viewed through its JSON parse status:
`json j` stands for a text that parses as the JSON value `j`, and `notJson s`
stands for a text `s` (for example the empty string) that does not parse as
JSON.  The Go code passes such results around as plain strings. -/
inductive RawText where
  | json (j : Json) : RawText
  | notJson (s : String) : RawText

/-- The Go test `resp == ""`: only the empty non-JSON text is the empty
string (no JSON value renders as the empty text). -/
def RawText.isEmptyStr : RawText → Bool
  | .notJson s => s == ""
  | .json _ => false

/-- First binding of a key in a JSON object's field list. -/
def lookupField : List (String × Json) → String → Option Json
  | [], _ => none
  | (k', v) :: rest, k => if k' = k then some v else lookupField rest k

/-- Overwrite the first binding of `key` in place, or append a new binding at
the end; all other bindings are left verbatim. -/
def setKey : List (String × Json) → String → Json → List (String × Json)
  | [], key, v => [(key, v)]
  | (k', v') :: rest, key, v =>
      if k' = key then (key, v) :: rest else (k', v') :: setKey rest key v

/-- Modelled from the spec: the JSON patch collaborator `sjson.Set` (the
tidwall/sjson package is not part of the audited tree).  Per the spec's
collaborator contract, `set(jsonText, path, value)` "must preserve
unknown/unexpected keys verbatim; only the targeted key is added or
overwritten".  On an object the targeted top-level key is set; on any other
JSON value a fresh object holding only the key is produced; the behaviour on
text that is not JSON is unspecified by the contract and modelled as the
identity. -/
def sjsonSet : RawText → String → String → Except String RawText
  | .json (.obj fields), key, v => .ok (.json (.obj (setKey fields key (.str v))))
  | .json _, key, v => .ok (.json (.obj [(key, Json.str v)]))
  | .notJson s, _, _ => .ok (.notJson s)

/-- Modelled from the spec: the error messages Go's encoding/json can produce
when unmarshalling fails (positions and type names are elided; only
distinctness from the service-level messages matters). -/
def jsonParseErrorMessages : List String :=
  ["unexpected end of JSON input",
   "invalid character looking for beginning of value",
   "json: cannot unmarshal JSON value into Go value",
   "json: cannot unmarshal JSON value into Go struct field of type string"]

/-- Modelled from the spec: decoding one optional-string struct field from a
JSON object, as Go's encoding/json does for a `*string` field: an absent key
or a JSON null leaves the field nil, a JSON string populates it, and any
other JSON value is an unmarshal error. -/
def getStrField (fields : List (String × Json)) (key : String) :
    Except String (Option String) :=
  match lookupField fields key with
  | none => .ok none
  | some (Json.str s) => .ok (some s)
  | some Json.null => .ok none
  | some _ => .error "json: cannot unmarshal JSON value into Go struct field of type string"

/-- Modelled from the spec: `models.OCRRawInfo` (models/ocr.go is not part of
the audited tree; the record is documented in the repository README): up to
eight optional string fields with JSON keys identify_url, name, birthday,
position, department, facility, valid_date, specialty_valid_date. -/
structure OCRRawInfo where
  identifyURL : Option String
  name : Option String
  birthday : Option String
  position : Option String
  department : Option String
  facility : Option String
  validDate : Option String
  specialtyValidDate : Option String

/-- The all-nil `models.OCRRawInfo{}` zero value. -/
def OCRRawInfo.zero : OCRRawInfo :=
  ⟨none, none, none, none, none, none, none, none⟩

/-- Modelled from the spec: `json.Unmarshal` of a raw text into
`models.OCRRawInfo`.  Mirrors Go's encoding/json: text that is not JSON
fails; a top-level `null` succeeds leaving the zero record; an object decodes
each pointer field via `getStrField`; any other top-level value fails. -/
def unmarshalOCRRawInfo : RawText → Except String OCRRawInfo
  | .notJson s =>
      .error (if s == "" then "unexpected end of JSON input"
              else "invalid character looking for beginning of value")
  | .json Json.null => .ok OCRRawInfo.zero
  | .json (Json.obj fields) => do
      let identifyURL ← getStrField fields "identify_url"
      let name ← getStrField fields "name"
      let birthday ← getStrField fields "birthday"
      let position ← getStrField fields "position"
      let department ← getStrField fields "department"
      let facility ← getStrField fields "facility"
      let validDate ← getStrField fields "valid_date"
      let specialtyValidDate ← getStrField fields "specialty_valid_date"
      pure ⟨identifyURL, name, birthday, position, department, facility,
            validDate, specialtyValidDate⟩
  | .json _ => .error "json: cannot unmarshal JSON value into Go value"

/-- Modelled from the spec: `json.Unmarshal` of a raw text into the anonymous
`struct { Name string }` used by `ScanName`.  A plain (non-pointer) string
field decodes from a JSON string, stays at its zero value "" for an absent
key, a JSON null or a top-level null, and errors on any other value. -/
def unmarshalName : RawText → Except String String
  | .notJson s =>
      .error (if s == "" then "unexpected end of JSON input"
              else "invalid character looking for beginning of value")
  | .json Json.null => .ok ""
  | .json (Json.obj fields) =>
      match lookupField fields "name" with
      | none => .ok ""
      | some (Json.str s) => .ok s
      | some Json.null => .ok ""
      | some _ => .error "json: cannot unmarshal JSON value into Go struct field of type string"
  | .json _ => .error "json: cannot unmarshal JSON value into Go value"

namespace OpenAI

/-- `openai.Client` (client/openai/client.go): the held provider SDK handle
(`none` models a nil handle) and the default model name, both set once at
construction. -/
structure Client where
  client : Option Unit
  defaultModel : String

/-- One element of the user message's content-part list: either a text part
(`openai.TextContentPart`) or an image part carrying the reference URL
verbatim (`openai.ImageContentPart` with `ImageURL.URL = url`). -/
inductive ContentPart where
  | text (s : String) : ContentPart
  | imageUrl (url : String) : ContentPart

/-- Whether a content part is an image-URL part. -/
def ContentPart.isImageUrl : ContentPart → Bool
  | .imageUrl _ => true
  | .text _ => false

/-- One element of the outgoing message list: a system message or a user
message made of content parts. -/
inductive ChatMessage where
  | system (content : String) : ChatMessage
  | user (parts : List ContentPart) : ChatMessage

/-- `openai.ChatCompletionNewParams` as populated by `Generate`: model id,
message list, the JSON-object response-format flag and the optional
max-tokens cap. -/
structure ChatCompletionNewParams where
  model : String
  messages : List ChatMessage
  responseFormatJsonObject : Bool
  maxTokens : Option Int

/-- The message inside one response choice; its content is a single string in
the chat-completions response shape. -/
structure ChoiceMessage where
  content : String

/-- One response choice. -/
structure Choice where
  message : ChoiceMessage

/-- The chat-completions response envelope: a list of choices. -/
structure ChatCompletion where
  choices : List Choice

/-- The per-call model resolution in `Generate`: `model := c.defaultModel;
if opts.Model != "" { model = openai.ChatModel(opts.Model) }`. -/
def resolveModel (c : Client) (opts : Models.AIClientOptions) : String :=
  if opts.model != "" then opts.model else c.defaultModel

/-- The user content parts built by `Generate`: the text part first when the
text is non-empty, then one image-URL part per image reference, in order.
No fetch of the reference happens; the URL itself is placed in the part. -/
def userContentParts (message : Models.AIChatMessage) : List ContentPart :=
  (if message.text != "" then [ContentPart.text message.text] else []) ++
    message.imageUrls.map (fun url => ContentPart.imageUrl url)

/-- The request-construction section of `Generate` (client/openai/client.go):
optional system message, the user message, the resolved model, the JSON-mode
flag when `opts.ResponseFormat == models.ResponseFormatJSON`, and the token
cap when positive. -/
def buildParams (model : String) (message : Models.AIChatMessage)
    (opts : Models.AIClientOptions) : ChatCompletionNewParams :=
  { model := model
    messages :=
      (if message.systemPrompt != "" then [ChatMessage.system message.systemPrompt] else []) ++
        [ChatMessage.user (userContentParts message)]
    responseFormatJsonObject := opts.responseFormat == Models.ResponseFormatJSON
    maxTokens := if opts.maxTokens > 0 then some opts.maxTokens else none }

/-- `(*Client).Generate` (client/openai/client.go).  The provider SDK call
`c.client.Chat.Completions.New` is the injected parameter `complete`.  A nil
handle, a provider error and an empty choice list fail; otherwise the first
choice's message content string is returned as-is. -/
def Generate (c : Client)
    (complete : ChatCompletionNewParams → Except String ChatCompletion)
    (message : Models.AIChatMessage) (opts : Models.AIClientOptions) :
    Except String String :=
  match c.client with
  | none => .error "openai client is not initialized"
  | some _ =>
    match complete (buildParams (resolveModel c opts) message opts) with
    | .error e => .error e
    | .ok resp =>
      match resp.choices with
      | [] => .error "empty response choices from OpenAI"
      | choice :: _ => .ok choice.message.content

/-- State-passing form of `Generate`: the Go method has a pointer receiver,
so the post-call receiver is returned alongside the result; the method body
contains no write to either field, so the receiver is returned unchanged. -/
def GenerateSt (c : Client)
    (complete : ChatCompletionNewParams → Except String ChatCompletion)
    (message : Models.AIChatMessage) (opts : Models.AIClientOptions) :
    Except String String × Client :=
  (Generate c complete message opts, c)

end OpenAI

/-- Raw image bytes, as fetched by the image collaborator. -/
abbrev Bytes := List Nat

namespace Gemini

/-- `gemini.Client` (client/gemini/client.go): the held genai handle (`none`
models nil) and the default model name. -/
structure Client where
  client : Option Unit
  defaultModel : String

/-- `genai.Part` as built by `Generate`: a text part
(`genai.NewPartFromText`) or an inline-bytes part with a MIME type
(`genai.NewPartFromBytes`). -/
inductive Part where
  | text (s : String) : Part
  | inlineData (data : Bytes) (mimeType : String) : Part

/-- The `Text` field of a part: empty on an inline-bytes part. -/
def Part.textOf : Part → String
  | .text s => s
  | .inlineData _ _ => ""

/-- `genai.Content`: an ordered part list with a role. -/
structure Content where
  parts : List Part
  role : String

/-- `genai.Candidate`: its content may be nil. -/
structure Candidate where
  content : Option Content

/-- `genai.GenerateContentResponse`: a candidate list. -/
structure GenerateContentResponse where
  candidates : List Candidate

/-- `genai.GenerateContentConfig` as populated by `Generate`: optional system
instruction, response MIME type ("" when unset) and max output tokens
(0 when unset, truncated to int32). -/
structure GenerateContentConfig where
  systemInstruction : Option String
  responseMIMEType : String
  maxOutputTokens : Int

/-- The Go conversion `int32(n)` of an int64 value. -/
def int32ofInt64 (n : Int) : Int :=
  (n + 2 ^ 31) % 2 ^ 32 - 2 ^ 31

/-- The per-call model resolution in `Generate`: default model unless
`opts.Model` is non-empty. -/
def resolveModelName (c : Client) (opts : Models.AIClientOptions) : String :=
  if opts.model != "" then opts.model else c.defaultModel

/-- The image loop of `Generate` (client/gemini/client.go): each image
reference is fetched via `util.DownloadImage` (the injected `fetch`), its
MIME type is sniffed from the bytes via `http.DetectContentType` (the
injected `sniff`), and an inline-bytes part is appended; a failed fetch
aborts the call with a wrapped error. -/
def downloadParts (fetch : String → Except String Bytes) (sniff : Bytes → String) :
    List String → Except String (List Part)
  | [] => .ok []
  | url :: rest =>
    match fetch url with
    | .error e => .error ("failed to download image: " ++ e)
    | .ok imageData =>
      match downloadParts fetch sniff rest with
      | .error e => .error e
      | .ok parts => .ok (Part.inlineData imageData (sniff imageData) :: parts)

/-- The content-part construction of `Generate`: the text part first when the
text is non-empty, then the downloaded inline-image parts in order. -/
def buildContentParts (fetch : String → Except String Bytes)
    (sniff : Bytes → String) (message : Models.AIChatMessage) :
    Except String (List Part) :=
  match downloadParts fetch sniff message.imageUrls with
  | .error e => .error e
  | .ok imgParts =>
    .ok ((if message.text != "" then [Part.text message.text] else []) ++ imgParts)

/-- The generation-config construction of `Generate`: system instruction when
non-empty, "application/json" MIME type when JSON format is requested, token
cap when positive. -/
def buildConfig (message : Models.AIChatMessage) (opts : Models.AIClientOptions) :
    GenerateContentConfig :=
  { systemInstruction :=
      if message.systemPrompt != "" then some message.systemPrompt else none
    responseMIMEType :=
      if opts.responseFormat == Models.ResponseFormatJSON then "application/json" else ""
    maxOutputTokens := if opts.maxTokens > 0 then int32ofInt64 opts.maxTokens else 0 }

/-- The text concatenation over the top candidate's parts: every part with a
non-empty `Text` is appended in order with no separator; other parts are
skipped. -/
def concatText (parts : List Part) : String :=
  parts.foldl (fun acc p => if p.textOf != "" then acc ++ p.textOf else acc) ""

/-- `(*Client).Generate` (client/gemini/client.go).  The provider SDK call
`c.client.Models.GenerateContent` is the injected parameter
`generateContent`.  A nil handle, a failed image fetch, a provider error, an
empty candidate list and a nil-or-empty top-candidate content all fail;
otherwise the text-bearing parts of the top candidate are concatenated. -/
def Generate (c : Client) (fetch : String → Except String Bytes)
    (sniff : Bytes → String)
    (generateContent : String → List Content → GenerateContentConfig →
      Except String GenerateContentResponse)
    (message : Models.AIChatMessage) (opts : Models.AIClientOptions) :
    Except String String :=
  match c.client with
  | none => .error "gemini client is not initialized"
  | some _ =>
    match buildContentParts fetch sniff message with
    | .error e => .error e
    | .ok contentParts =>
      match generateContent (resolveModelName c opts)
          [⟨contentParts, "user"⟩] (buildConfig message opts) with
      | .error e => .error ("failed to generate content: " ++ e)
      | .ok resp =>
        match resp.candidates with
        | [] => .error "empty response from Gemini"
        | candidate :: _ =>
          match candidate.content with
          | none => .error "empty content in Gemini response"
          | some content =>
            match content.parts with
            | [] => .error "empty content in Gemini response"
            | _ => .ok (concatText content.parts)

/-- State-passing form of `Generate`: the Go method has a pointer receiver,
so the post-call receiver is returned alongside the result; the method body
contains no write to either field, so the receiver is returned unchanged. -/
def GenerateSt (c : Client) (fetch : String → Except String Bytes)
    (sniff : Bytes → String)
    (generateContent : String → List Content → GenerateContentConfig →
      Except String GenerateContentResponse)
    (message : Models.AIChatMessage) (opts : Models.AIClientOptions) :
    Except String String × Client :=
  (Generate c fetch sniff generateContent message opts, c)

end Gemini

namespace Store

/-- Modelled from the spec: the prompt catalog's fixed system prompt
`models.SystemContent` (models package not in the audited tree; its contents
are opaque to every claim). -/
def SystemContent : String := "system-content"

/-- Modelled from the spec: the name-extraction prompt `models.NamePrompt`. -/
def NamePrompt : String := "name-prompt"

/-- Modelled from the spec: `models.GetInfoPrompt`, the platform-specific
extraction prompt; a pure function of the platform category. -/
def GetInfoPrompt (platformType : Models.PlatformType) : String :=
  "info-prompt:" ++ platformType

/-- Modelled from the spec: `models.GetExtractTagsSystemPrompt`, the
platform-specific tag-extraction system prompt. -/
def GetExtractTagsSystemPrompt (professionType : Models.PlatformType) : String :=
  "extract-tags-system-prompt:" ++ professionType

/-- Modelled from the spec: `models.GetPolishArticleSystemPrompt`. -/
def GetPolishArticleSystemPrompt (professionType : Models.PlatformType) : String :=
  "polish-article-system-prompt:" ++ professionType

/-- Modelled from the spec: the development queue topic `models.OCRTopicDev`
(default topic per the repository README). -/
def OCRTopicDev : String := "wanderer-dev"

/-- Modelled from the spec: the production queue topic `models.OCRTopicProd`. -/
def OCRTopicProd : String := "wanderer-prod"

/-- Modelled from the spec: the fixed message-type constant
`models.OCRMessageTypeIdentifyOCR` (value per the repository README). -/
def OCRMessageTypeIdentifyOCR : String := "identify_ocr"

/-- Modelled from the spec: `models.OCREventMessage` as populated by
`ScanRawInfo` (store/ocr.go): user id, the patched raw JSON text as payload,
the publisher-set creation time, the fixed type constant and the platform
category as source. -/
structure OCREventMessage where
  userID : String
  payload : RawText
  createdAt : Nat
  type : String
  source : String

/-- The `store.AIClient` interface: the single `Generate` capability, as an
injected function.  Its string result is represented as a `RawText`. -/
abbrev AIClient :=
  Models.AIChatMessage → Models.AIClientOptions → Except String RawText

/-- The `mq.MQ` collaborator's consumed operation `Send(topic, payload)`. -/
abbrev MQ := String → OCREventMessage → Except String Unit

/-- `store.Config` (store/ocr.go). -/
structure Config where
  maxToken : Int
  isProd : Bool

/-- `store.ocrStore`: the injected queue, the injected generation client
(`none` models nil) and the configuration. -/
structure OcrStore where
  mq : MQ
  aiClient : Option AIClient
  cfg : Config

/-- `store.ArticleConfig` (store/article.go). -/
structure ArticleConfig where
  maxToken : Int

/-- `store.articleStore`. -/
structure ArticleStore where
  aiClient : Option AIClient
  cfg : ArticleConfig

/-- The option record built by every store operation that forces JSON mode:
`models.AIClientOptions{MaxTokens: maxToken, ResponseFormat:
models.ResponseFormatJSON}` (the model override stays at its zero value). -/
def jsonOpts (maxToken : Int) : Models.AIClientOptions :=
  ⟨maxToken, "", Models.ResponseFormatJSON⟩

/-- The request `ScanName` builds: fixed system prompt, the name prompt and
the single image link. -/
def scanNameMessage (link : String) : Models.AIChatMessage :=
  ⟨SystemContent, NamePrompt, [link]⟩

/-- The request `ScanRawInfo` builds: fixed system prompt, the
platform-specific extraction prompt and the single image link. -/
def scanRawInfoMessage (link : String) (platformType : Models.PlatformType) :
    Models.AIChatMessage :=
  ⟨SystemContent, GetInfoPrompt platformType, [link]⟩

/-- The request `ExtractTags` builds: platform-specific system prompt, the
content as user text and no images. -/
def extractTagsMessage (content : String) (professionType : Models.PlatformType) :
    Models.AIChatMessage :=
  ⟨GetExtractTagsSystemPrompt professionType, content, []⟩

/-- An observable step of a store operation, recorded in execution order:
the adapter call, the sjson patch, the queue publish (with the send's
outcome) and the json.Unmarshal parse. -/
inductive Ev where
  | generated (message : Models.AIChatMessage) (opts : Models.AIClientOptions) : Ev
  | patched (key : String) (value : String) : Ev
  | published (topic : String) (event : OCREventMessage)
      (outcome : Except String Unit) : Ev
  | parsed (payload : RawText) : Ev

/-- Whether an event is the sjson patch. -/
def Ev.isPatched : Ev → Bool
  | .patched _ _ => true
  | _ => false

/-- Whether an event is the queue publish. -/
def Ev.isPublished : Ev → Bool
  | .published _ _ _ => true
  | _ => false

/-- Whether an event is the parse into the structured record. -/
def Ev.isParsed : Ev → Bool
  | .parsed _ => true
  | _ => false

/-- `p` occurs strictly before `q` in the trace (both first occurrences
exist and `p`'s index is smaller). -/
def beforeB (p q : Ev → Bool) (trace : List Ev) : Bool :=
  match trace.findIdx? p, trace.findIdx? q with
  | some i, some j => i < j
  | _, _ => false

/-- `(*ocrStore).ScanName` (store/ocr.go), paired with its event trace: nil
client check, adapter call, then `json.Unmarshal` of the result into the
anonymous name struct.  No queue interaction exists on this path. -/
def ScanName (s : OcrStore) (link : String) :
    Except String String × List Ev :=
  match s.aiClient with
  | none => (.error "AI client is not initialized", [])
  | some generate =>
    let message := scanNameMessage link
    let opts := jsonOpts s.cfg.maxToken
    match generate message opts with
    | .error e => (.error e, [.generated message opts])
    | .ok resp =>
      match unmarshalName resp with
      | .error e => (.error e, [.generated message opts, .parsed resp])
      | .ok name => (.ok name, [.generated message opts, .parsed resp])

/-- `(*ocrStore).ScanRawInfo` (store/ocr.go), paired with its event trace,
in source statement order: nil client check, adapter call, empty-result
check, `sjson.Set` of identify_url, topic selection, `mq.Send` (whose error
is only logged), `json.Unmarshal` into `models.OCRRawInfo`, return.  `now`
injects `time.Now()`. -/
def ScanRawInfo (s : OcrStore) (now : Nat) (userID : String) (link : String)
    (platformType : Models.PlatformType) :
    Except String OCRRawInfo × List Ev :=
  match s.aiClient with
  | none => (.error "AI client is not initialized", [])
  | some generate =>
    let message := scanRawInfoMessage link platformType
    let opts := jsonOpts s.cfg.maxToken
    match generate message opts with
    | .error e => (.error e, [.generated message opts])
    | .ok resp =>
      if resp.isEmptyStr then
        (.error "empty response content from AI client", [.generated message opts])
      else
        match sjsonSet resp "identify_url" link with
        | .error e => (.error e, [.generated message opts])
        | .ok modifiedJSON =>
          let ocrTopic := if s.cfg.isProd then OCRTopicProd else OCRTopicDev
          let event : OCREventMessage :=
            ⟨userID, modifiedJSON, now, OCRMessageTypeIdentifyOCR, platformType⟩
          let outcome := s.mq ocrTopic event
          let trace := [.generated message opts, .patched "identify_url" link,
                        .published ocrTopic event outcome, .parsed modifiedJSON]
          match unmarshalOCRRawInfo modifiedJSON with
          | .error e => (.error e, trace)
          | .ok ocr => (.ok ocr, trace)

/-- `(*articleStore).ExtractTags` (store/article.go), paired with its event
trace: nil client check, adapter call with forced JSON format, empty-result
check, and the adapter's result returned unmodified. -/
def ExtractTags (s : ArticleStore) (content : String)
    (professionType : Models.PlatformType) :
    Except String RawText × List Ev :=
  match s.aiClient with
  | none => (.error "AI client is not initialized", [])
  | some generate =>
    let message := extractTagsMessage content professionType
    let opts := jsonOpts s.cfg.maxToken
    match generate message opts with
    | .error e => (.error e, [.generated message opts])
    | .ok resp =>
      if resp.isEmptyStr then
        (.error "empty response content from AI client", [.generated message opts])
      else
        (.ok resp, [.generated message opts])

end Store

/-! Helper lemmas about the JSON model and the adapters' loops. -/

/-- `pure` on `Except` is `ok`. -/
theorem exceptPure_eq {α : Type} (a : α) : (pure a : Except String α) = .ok a := rfl

/-- Binding a successful `Except` applies the continuation. -/
theorem exceptBind_ok {α β : Type} (a : α) (f : α → Except String β) :
    (Except.ok a >>= f) = f a := rfl

/-- Binding a failed `Except` propagates the failure. -/
theorem exceptBind_error {α β : Type} (e : String) (f : α → Except String β) :
    (Except.error e >>= f) = Except.error e := rfl

/-- Setting a key makes that key look up to the new value. -/
theorem lookupField_setKey_self (fields : List (String × Json)) (key : String) (v : Json) :
    lookupField (setKey fields key v) key = some v := by
  induction fields with
  | nil => simp [setKey, lookupField]
  | cons kv rest ih =>
    obtain ⟨k', v'⟩ := kv
    by_cases hk : k' = key
    · simp [setKey, hk, lookupField]
    · simp [setKey, hk, lookupField, ih]

/-- Setting a key leaves every other key's lookup unchanged. -/
theorem lookupField_setKey_other (fields : List (String × Json)) (key k : String)
    (v : Json) (hk : k ≠ key) :
    lookupField (setKey fields key v) k = lookupField fields k := by
  induction fields with
  | nil =>
    simp only [setKey, lookupField]
    rw [if_neg (fun h => hk h.symm)]
  | cons kv rest ih =>
    obtain ⟨k', v'⟩ := kv
    by_cases hk' : k' = key
    · subst hk'
      simp only [setKey, if_pos rfl, lookupField]
      rw [if_neg (fun h => hk h.symm), if_neg (fun h => hk h.symm)]
    · simp only [setKey, if_neg hk', lookupField]
      by_cases hkk : k' = k
      · rw [if_pos hkk, if_pos hkk]
      · rw [if_neg hkk, if_neg hkk]
        exact ih

/-- Every error `getStrField` can produce is a JSON-parse error message. -/
theorem getStrField_error_mem (fields : List (String × Json)) (key e : String)
    (h : getStrField fields key = .error e) : e ∈ jsonParseErrorMessages := by
  unfold getStrField at h
  cases hl : lookupField fields key with
  | none => rw [hl] at h; exact absurd h (by simp)
  | some j => rw [hl] at h; cases j <;> simp_all [jsonParseErrorMessages]

/-- Every error `unmarshalOCRRawInfo` can produce is a JSON-parse error
message. -/
theorem unmarshalOCRRawInfo_error_mem (rt : RawText) (e : String)
    (h : unmarshalOCRRawInfo rt = .error e) : e ∈ jsonParseErrorMessages := by
  cases rt with
  | notJson s =>
    simp only [unmarshalOCRRawInfo] at h
    injection h with h
    rw [← h]
    by_cases hs : s == "" <;> simp [hs, jsonParseErrorMessages]
  | json j =>
    cases j with
    | null => simp [unmarshalOCRRawInfo] at h
    | bool b => simp_all [unmarshalOCRRawInfo, jsonParseErrorMessages]
    | num n => simp_all [unmarshalOCRRawInfo, jsonParseErrorMessages]
    | str s => simp_all [unmarshalOCRRawInfo, jsonParseErrorMessages]
    | arr items => simp_all [unmarshalOCRRawInfo, jsonParseErrorMessages]
    | obj fields =>
      simp only [unmarshalOCRRawInfo] at h
      cases h1 : getStrField fields "identify_url" with
      | error e1 =>
        rw [h1, exceptBind_error] at h
        injection h with h; rw [← h]; exact getStrField_error_mem _ _ _ h1
      | ok v1 =>
      rw [h1, exceptBind_ok] at h
      cases h2 : getStrField fields "name" with
      | error e2 =>
        rw [h2, exceptBind_error] at h
        injection h with h; rw [← h]; exact getStrField_error_mem _ _ _ h2
      | ok v2 =>
      rw [h2, exceptBind_ok] at h
      cases h3 : getStrField fields "birthday" with
      | error e3 =>
        rw [h3, exceptBind_error] at h
        injection h with h; rw [← h]; exact getStrField_error_mem _ _ _ h3
      | ok v3 =>
      rw [h3, exceptBind_ok] at h
      cases h4 : getStrField fields "position" with
      | error e4 =>
        rw [h4, exceptBind_error] at h
        injection h with h; rw [← h]; exact getStrField_error_mem _ _ _ h4
      | ok v4 =>
      rw [h4, exceptBind_ok] at h
      cases h5 : getStrField fields "department" with
      | error e5 =>
        rw [h5, exceptBind_error] at h
        injection h with h; rw [← h]; exact getStrField_error_mem _ _ _ h5
      | ok v5 =>
      rw [h5, exceptBind_ok] at h
      cases h6 : getStrField fields "facility" with
      | error e6 =>
        rw [h6, exceptBind_error] at h
        injection h with h; rw [← h]; exact getStrField_error_mem _ _ _ h6
      | ok v6 =>
      rw [h6, exceptBind_ok] at h
      cases h7 : getStrField fields "valid_date" with
      | error e7 =>
        rw [h7, exceptBind_error] at h
        injection h with h; rw [← h]; exact getStrField_error_mem _ _ _ h7
      | ok v7 =>
      rw [h7, exceptBind_ok] at h
      cases h8 : getStrField fields "specialty_valid_date" with
      | error e8 =>
        rw [h8, exceptBind_error] at h
        injection h with h; rw [← h]; exact getStrField_error_mem _ _ _ h8
      | ok v8 =>
        rw [h8, exceptBind_ok, exceptPure_eq] at h
        exact absurd h (by simp)

/-- A successful unmarshal of a JSON object reads `identify_url` exactly as
`getStrField` does. -/
theorem unmarshalOCRRawInfo_obj_identifyURL (fields : List (String × Json))
    (ocr : OCRRawInfo) (v : Option String)
    (h : unmarshalOCRRawInfo (.json (.obj fields)) = .ok ocr)
    (h1 : getStrField fields "identify_url" = .ok v) :
    ocr.identifyURL = v := by
  simp only [unmarshalOCRRawInfo] at h
  rw [h1, exceptBind_ok] at h
  cases h2 : getStrField fields "name" with
  | error e2 => rw [h2, exceptBind_error] at h; exact absurd h (by simp)
  | ok v2 =>
  rw [h2, exceptBind_ok] at h
  cases h3 : getStrField fields "birthday" with
  | error e3 => rw [h3, exceptBind_error] at h; exact absurd h (by simp)
  | ok v3 =>
  rw [h3, exceptBind_ok] at h
  cases h4 : getStrField fields "position" with
  | error e4 => rw [h4, exceptBind_error] at h; exact absurd h (by simp)
  | ok v4 =>
  rw [h4, exceptBind_ok] at h
  cases h5 : getStrField fields "department" with
  | error e5 => rw [h5, exceptBind_error] at h; exact absurd h (by simp)
  | ok v5 =>
  rw [h5, exceptBind_ok] at h
  cases h6 : getStrField fields "facility" with
  | error e6 => rw [h6, exceptBind_error] at h; exact absurd h (by simp)
  | ok v6 =>
  rw [h6, exceptBind_ok] at h
  cases h7 : getStrField fields "valid_date" with
  | error e7 => rw [h7, exceptBind_error] at h; exact absurd h (by simp)
  | ok v7 =>
  rw [h7, exceptBind_ok] at h
  cases h8 : getStrField fields "specialty_valid_date" with
  | error e8 => rw [h8, exceptBind_error] at h; exact absurd h (by simp)
  | ok v8 =>
    rw [h8, exceptBind_ok, exceptPure_eq] at h
    injection h with h
    rw [← h]

/-- A successful download loop resolves every listed reference to fetched
bytes whose sniffed MIME type labels an inline part of the result. -/
theorem downloadParts_mem (fetch : String → Except String Bytes)
    (sniff : Bytes → String) :
    ∀ (urls : List String) (parts : List Gemini.Part),
      Gemini.downloadParts fetch sniff urls = .ok parts →
      ∀ u ∈ urls, ∃ bs, fetch u = .ok bs ∧ Gemini.Part.inlineData bs (sniff bs) ∈ parts := by
  intro urls
  induction urls with
  | nil => intro parts h u hu; exact absurd hu (List.not_mem_nil u)
  | cons url rest ih =>
    intro parts h u hu
    simp only [Gemini.downloadParts] at h
    cases hf : fetch url with
    | error e => rw [hf] at h; exact absurd h (by simp)
    | ok bs =>
      rw [hf] at h
      cases hr : Gemini.downloadParts fetch sniff rest with
      | error e => rw [hr] at h; exact absurd h (by simp)
      | ok ps =>
        rw [hr] at h
        injection h with h
        subst h
        rcases List.mem_cons.mp hu with rfl | hu'
        · exact ⟨bs, hf, List.mem_cons_self _ _⟩
        · obtain ⟨bs', hb, hm⟩ := ih ps hr u hu'
          exact ⟨bs', hb, List.mem_cons_of_mem _ hm⟩

/-! Claim theorems. -/

/-- C4: for every call to `ScanRawInfo` in which the adapter returns a
non-empty result whose patched JSON parses successfully, the call returns
that parsed record with no error, whatever the message-queue collaborator's
`Send` returns: the publish outcome is absent from the returned value. -/
theorem scanRawInfo_publish_failure_not_propagated
    (mqSend : Store.MQ) (gen : Store.AIClient) (cfg : Store.Config)
    (now : Nat) (userID link : String) (pt : Models.PlatformType)
    (resp modified : RawText) (ocr : OCRRawInfo)
    (hgen : gen (Store.scanRawInfoMessage link pt) (Store.jsonOpts cfg.maxToken) = .ok resp)
    (hne : resp.isEmptyStr = false)
    (hset : sjsonSet resp "identify_url" link = .ok modified)
    (hum : unmarshalOCRRawInfo modified = .ok ocr) :
    (Store.ScanRawInfo ⟨mqSend, some gen, cfg⟩ now userID link pt).1 = .ok ocr := by
  simp only [Store.ScanRawInfo, hgen, hne, hset, hum]
  rfl

/-- Witness for C4: a concrete run whose queue always fails still returns the
parsed record. -/
theorem scanRawInfo_publish_failure_not_propagated_witness :
    (Store.ScanRawInfo
        ⟨fun _ _ => .error "queue down",
         some (fun _ _ => .ok (.json (.obj [("name", Json.str "A")]))),
         ⟨1024, false⟩⟩ 7 "u1" "https://x/img.jpg" Models.PlatformTypeApen).1 =
      .ok ⟨some "https://x/img.jpg", some "A", none, none, none, none, none, none⟩ :=
  scanRawInfo_publish_failure_not_propagated _ _ _ _ _ _ _ _ _ _ rfl rfl rfl rfl

/-- C5: on every successful `ScanRawInfo` whose model output is a JSON
object, the returned record's identify_url equals the input image URI —
whatever value, if any, the model output held for that key — and the
injection is a targeted key-set that leaves the lookup of every other key of
the model output unchanged. -/
theorem scanRawInfo_identify_url_injection
    (mqSend : Store.MQ) (gen : Store.AIClient) (cfg : Store.Config)
    (now : Nat) (userID link : String) (pt : Models.PlatformType)
    (fields : List (String × Json)) (ocr : OCRRawInfo)
    (hgen : gen (Store.scanRawInfoMessage link pt) (Store.jsonOpts cfg.maxToken) =
      .ok (.json (.obj fields)))
    (hres : (Store.ScanRawInfo ⟨mqSend, some gen, cfg⟩ now userID link pt).1 = .ok ocr) :
    ocr.identifyURL = some link ∧
    lookupField (setKey fields "identify_url" (Json.str link)) "identify_url" =
      some (Json.str link) ∧
    (∀ k, k ≠ "identify_url" →
      lookupField (setKey fields "identify_url" (Json.str link)) k = lookupField fields k) := by
  refine ⟨?_, lookupField_setKey_self fields _ _,
          fun k hk => lookupField_setKey_other fields _ k _ hk⟩
  simp [Store.ScanRawInfo, hgen, RawText.isEmptyStr, sjsonSet] at hres
  cases hum : unmarshalOCRRawInfo (.json (.obj (setKey fields "identify_url" (Json.str link)))) with
  | error e =>
    rw [hum] at hres
    simp at hres
  | ok ocr' =>
    rw [hum] at hres
    simp at hres
    have hocr : ocr' = ocr := hres
    subst hocr
    have hget : getStrField (setKey fields "identify_url" (Json.str link)) "identify_url" =
        .ok (some link) := by
      unfold getStrField
      rw [lookupField_setKey_self]
    exact unmarshalOCRRawInfo_obj_identifyURL _ _ _ hum hget

/-- Witness for C5: a model output carrying a different identify_url is
overwritten and its other key survives verbatim. -/
theorem scanRawInfo_identify_url_injection_witness :
    (⟨some "https://x/img.jpg", some "A", none, none, none, none, none, none⟩ :
        OCRRawInfo).identifyURL = some "https://x/img.jpg" ∧
    lookupField (setKey [("name", Json.str "A"), ("identify_url", Json.str "http://other")]
        "identify_url" (Json.str "https://x/img.jpg")) "identify_url" =
      some (Json.str "https://x/img.jpg") ∧
    (∀ k, k ≠ "identify_url" →
      lookupField (setKey [("name", Json.str "A"), ("identify_url", Json.str "http://other")]
          "identify_url" (Json.str "https://x/img.jpg")) k =
        lookupField [("name", Json.str "A"), ("identify_url", Json.str "http://other")] k) :=
  scanRawInfo_identify_url_injection (fun _ _ => .ok ()) 
    (fun _ _ => .ok (.json (.obj [("name", Json.str "A"), ("identify_url", Json.str "http://other")])))
    ⟨1024, false⟩ 7 "u1" "https://x/img.jpg" Models.PlatformTypeApen
    [("name", Json.str "A"), ("identify_url", Json.str "http://other")]
    ⟨some "https://x/img.jpg", some "A", none, none, none, none, none, none⟩ rfl rfl

/-- C6: when the adapter succeeds with the empty string, `ScanRawInfo` fails
with the dedicated empty-result message — which no JSON-parse failure can
produce — and its trace holds only the adapter call: no identify_url patch
and no queue publish happened. -/
theorem scanRawInfo_empty_result_hard_failure
    (mqSend : Store.MQ) (gen : Store.AIClient) (cfg : Store.Config)
    (now : Nat) (userID link : String) (pt : Models.PlatformType)
    (hgen : gen (Store.scanRawInfoMessage link pt) (Store.jsonOpts cfg.maxToken) =
      .ok (.notJson "")) :
    Store.ScanRawInfo ⟨mqSend, some gen, cfg⟩ now userID link pt =
      (.error "empty response content from AI client",
       [.generated (Store.scanRawInfoMessage link pt) (Store.jsonOpts cfg.maxToken)]) ∧
    (∀ rt e, unmarshalOCRRawInfo rt = .error e → e ∈ jsonParseErrorMessages) ∧
    "empty response content from AI client" ∉ jsonParseErrorMessages := by
  refine ⟨?_, unmarshalOCRRawInfo_error_mem, by decide⟩
  simp [Store.ScanRawInfo, hgen, RawText.isEmptyStr]

/-- Witness for C6: a concrete run with an empty adapter result. -/
theorem scanRawInfo_empty_result_hard_failure_witness :
    Store.ScanRawInfo
        ⟨fun _ _ => .ok (), some (fun _ _ => .ok (.notJson "")), ⟨1024, true⟩⟩
        3 "u2" "https://x/a.png" Models.PlatformTypeNurse =
      (.error "empty response content from AI client",
       [.generated (Store.scanRawInfoMessage "https://x/a.png" Models.PlatformTypeNurse)
          (Store.jsonOpts (1024 : Int))]) ∧
    (∀ rt e, unmarshalOCRRawInfo rt = .error e → e ∈ jsonParseErrorMessages) ∧
    "empty response content from AI client" ∉ jsonParseErrorMessages :=
  scanRawInfo_empty_result_hard_failure (fun _ _ => .ok ())
    (fun _ _ => .ok (.notJson "")) ⟨1024, true⟩ 3 "u2" "https://x/a.png"
    Models.PlatformTypeNurse rfl

/-- C10: when the patch succeeds but the patched JSON fails to unmarshal,
`ScanRawInfo` returns that parse error to the caller although the event
carrying the patched JSON was already handed to the queue: the publish is in
the trace and strictly precedes the parse, and the error return does not
remove it. -/
theorem scanRawInfo_error_after_publish
    (mqSend : Store.MQ) (gen : Store.AIClient) (cfg : Store.Config)
    (now : Nat) (userID link : String) (pt : Models.PlatformType)
    (resp modified : RawText) (e : String)
    (hgen : gen (Store.scanRawInfoMessage link pt) (Store.jsonOpts cfg.maxToken) = .ok resp)
    (hne : resp.isEmptyStr = false)
    (hset : sjsonSet resp "identify_url" link = .ok modified)
    (hum : unmarshalOCRRawInfo modified = .error e) :
    (Store.ScanRawInfo ⟨mqSend, some gen, cfg⟩ now userID link pt).1 = .error e ∧
    (Store.ScanRawInfo ⟨mqSend, some gen, cfg⟩ now userID link pt).2.any
      Store.Ev.isPublished = true ∧
    Store.beforeB Store.Ev.isPublished Store.Ev.isParsed
      (Store.ScanRawInfo ⟨mqSend, some gen, cfg⟩ now userID link pt).2 = true := by
  simp only [Store.ScanRawInfo, hgen, hne, hset, hum]
  refine ⟨rfl, rfl, rfl⟩

/-- Witness for C10: a model output whose name field is a number parses into
the record unsuccessfully, yet the publish already appears in the trace. -/
theorem scanRawInfo_error_after_publish_witness :
    (Store.ScanRawInfo
        ⟨fun _ _ => .ok (), some (fun _ _ => .ok (.json (.obj [("name", Json.num 5)]))),
         ⟨1024, false⟩⟩ 9 "u3" "https://x/b.png" Models.PlatformTypePhar).1 =
      .error "json: cannot unmarshal JSON value into Go struct field of type string" ∧
    (Store.ScanRawInfo
        ⟨fun _ _ => .ok (), some (fun _ _ => .ok (.json (.obj [("name", Json.num 5)]))),
         ⟨1024, false⟩⟩ 9 "u3" "https://x/b.png" Models.PlatformTypePhar).2.any
      Store.Ev.isPublished = true ∧
    Store.beforeB Store.Ev.isPublished Store.Ev.isParsed
      (Store.ScanRawInfo
        ⟨fun _ _ => .ok (), some (fun _ _ => .ok (.json (.obj [("name", Json.num 5)]))),
         ⟨1024, false⟩⟩ 9 "u3" "https://x/b.png" Models.PlatformTypePhar).2 = true :=
  scanRawInfo_error_after_publish (fun _ _ => .ok ())
    (fun _ _ => .ok (.json (.obj [("name", Json.num 5)]))) ⟨1024, false⟩ 9 "u3"
    "https://x/b.png" Models.PlatformTypePhar _ _ _ rfl rfl rfl rfl

/-- The intra-call sequencing that claim C1 asserts of `ScanRawInfo`: in any
call that reaches the post-generation phase (a patch event exists), the
identify_url patch precedes the parse into the structured record, and the
parse precedes the queue publish. -/
def scanRawInfoClaimedSequencing : Prop :=
  ∀ (s : Store.OcrStore) (now : Nat) (userID link : String)
    (pt : Models.PlatformType),
    (Store.ScanRawInfo s now userID link pt).2.any Store.Ev.isPatched = true →
      Store.beforeB Store.Ev.isPatched Store.Ev.isParsed
        (Store.ScanRawInfo s now userID link pt).2 = true ∧
      Store.beforeB Store.Ev.isParsed Store.Ev.isPublished
        (Store.ScanRawInfo s now userID link pt).2 = true

/-- Counterexample to C1: in a concrete successful call the publish occupies
trace position 2 and the parse position 3, so the parse does not precede the
queue publish — store/ocr.go calls `mq.Send` with the patched JSON before
`json.Unmarshal` runs. -/
theorem scanRawInfo_parse_before_publish_refuted : ¬ scanRawInfoClaimedSequencing := by
  intro h
  have h2 := (h ⟨fun _ _ => .ok (),
      some (fun _ _ => .ok (.json (.obj [("name", Json.str "A")]))),
      ⟨1024, false⟩⟩ 0 "u1" "https://x/img.jpg" Models.PlatformTypeApen rfl).2
  have h3 : Store.beforeB Store.Ev.isParsed Store.Ev.isPublished
      (Store.ScanRawInfo ⟨fun _ _ => .ok (),
        some (fun _ _ => .ok (.json (.obj [("name", Json.str "A")]))),
        ⟨1024, false⟩⟩ 0 "u1" "https://x/img.jpg" Models.PlatformTypeApen).2 = false := rfl
  rw [h3] at h2
  exact Bool.false_ne_true h2

/-- C1 as amended (the order the code implements): past the empty-result
check, the patch precedes the publish, the publish precedes the parse, and
the returned value is exactly the unmarshal outcome — the same for every
queue collaborator, so the publish's outcome never gates it. -/
theorem scanRawInfo_sequencing
    (mqSend : Store.MQ) (gen : Store.AIClient) (cfg : Store.Config)
    (now : Nat) (userID link : String) (pt : Models.PlatformType)
    (resp modified : RawText)
    (hgen : gen (Store.scanRawInfoMessage link pt) (Store.jsonOpts cfg.maxToken) = .ok resp)
    (hne : resp.isEmptyStr = false)
    (hset : sjsonSet resp "identify_url" link = .ok modified) :
    Store.beforeB Store.Ev.isPatched Store.Ev.isPublished
      (Store.ScanRawInfo ⟨mqSend, some gen, cfg⟩ now userID link pt).2 = true ∧
    Store.beforeB Store.Ev.isPublished Store.Ev.isParsed
      (Store.ScanRawInfo ⟨mqSend, some gen, cfg⟩ now userID link pt).2 = true ∧
    (∀ mqSend' : Store.MQ,
      (Store.ScanRawInfo ⟨mqSend', some gen, cfg⟩ now userID link pt).1 =
        (Store.ScanRawInfo ⟨mqSend, some gen, cfg⟩ now userID link pt).1) := by
  simp only [Store.ScanRawInfo, hgen, hne, hset]
  cases hum : unmarshalOCRRawInfo modified with
  | error e => exact ⟨rfl, rfl, fun _ => rfl⟩
  | ok ocr => exact ⟨rfl, rfl, fun _ => rfl⟩

/-- Witness for C1's amended sequencing at a concrete call. -/
theorem scanRawInfo_sequencing_witness :
    Store.beforeB Store.Ev.isPatched Store.Ev.isPublished
      (Store.ScanRawInfo ⟨fun _ _ => .error "queue down",
        some (fun _ _ => .ok (.json (.obj [("name", Json.str "B")]))),
        ⟨512, true⟩⟩ 11 "u4" "https://x/c.png" Models.PlatformTypeApen).2 = true ∧
    Store.beforeB Store.Ev.isPublished Store.Ev.isParsed
      (Store.ScanRawInfo ⟨fun _ _ => .error "queue down",
        some (fun _ _ => .ok (.json (.obj [("name", Json.str "B")]))),
        ⟨512, true⟩⟩ 11 "u4" "https://x/c.png" Models.PlatformTypeApen).2 = true ∧
    (∀ mqSend' : Store.MQ,
      (Store.ScanRawInfo ⟨mqSend',
        some (fun _ _ => .ok (.json (.obj [("name", Json.str "B")]))),
        ⟨512, true⟩⟩ 11 "u4" "https://x/c.png" Models.PlatformTypeApen).1 =
      (Store.ScanRawInfo ⟨fun _ _ => .error "queue down",
        some (fun _ _ => .ok (.json (.obj [("name", Json.str "B")]))),
        ⟨512, true⟩⟩ 11 "u4" "https://x/c.png" Models.PlatformTypeApen).1) :=
  scanRawInfo_sequencing (fun _ _ => .error "queue down")
    (fun _ _ => .ok (.json (.obj [("name", Json.str "B")]))) ⟨512, true⟩ 11 "u4"
    "https://x/c.png" Models.PlatformTypeApen _ _ rfl rfl rfl

/-- C7: `ScanName` returns a JSON-parse error — never a silent empty name —
whenever the adapter returns text that is not valid JSON, and no execution
of `ScanName`, successful or failed, ever publishes to the message queue. -/
theorem scanName_parse_error_and_never_publishes :
    (∀ (mqSend : Store.MQ) (gen : Store.AIClient) (cfg : Store.Config) (link t : String),
      gen (Store.scanNameMessage link) (Store.jsonOpts cfg.maxToken) = .ok (.notJson t) →
      ∃ e, (Store.ScanName ⟨mqSend, some gen, cfg⟩ link).1 = .error e ∧
        e ∈ jsonParseErrorMessages) ∧
    (∀ (s : Store.OcrStore) (link : String),
      (Store.ScanName s link).2.all (fun ev => !ev.isPublished) = true) := by
  constructor
  · intro mqSend gen cfg link t hgen
    refine ⟨if t == "" then "unexpected end of JSON input"
            else "invalid character looking for beginning of value", ?_, ?_⟩
    · simp [Store.ScanName, hgen, unmarshalName]
    · by_cases ht : t == "" <;> simp [ht, jsonParseErrorMessages]
  · intro s link
    obtain ⟨mqSend, ai, cfg⟩ := s
    cases ai with
    | none => rfl
    | some gen =>
      simp only [Store.ScanName]
      cases hg : gen (Store.scanNameMessage link) (Store.jsonOpts cfg.maxToken) with
      | error e => rfl
      | ok resp =>
        cases hu : unmarshalName resp with
        | error e =>
          simp only [hu]
          rfl
        | ok name =>
          simp only [hu]
          rfl

/-- Witness for C7 at a concrete non-JSON model output. -/
theorem scanName_parse_error_and_never_publishes_witness :
    (∃ e, (Store.ScanName
        ⟨fun _ _ => .ok (), some (fun _ _ => .ok (.notJson "I cannot help with that")),
         ⟨1024, false⟩⟩ "https://x/d.png").1 = .error e ∧
      e ∈ jsonParseErrorMessages) ∧
    (Store.ScanName
        ⟨fun _ _ => .ok (), some (fun _ _ => .ok (.notJson "I cannot help with that")),
         ⟨1024, false⟩⟩ "https://x/d.png").2.all (fun ev => !ev.isPublished) = true :=
  ⟨scanName_parse_error_and_never_publishes.1 (fun _ _ => .ok ())
      (fun _ _ => .ok (.notJson "I cannot help with that")) ⟨1024, false⟩
      "https://x/d.png" "I cannot help with that" rfl,
   scanName_parse_error_and_never_publishes.2
      ⟨fun _ _ => .ok (), some (fun _ _ => .ok (.notJson "I cannot help with that")),
       ⟨1024, false⟩⟩ "https://x/d.png"⟩

/-- C8: `ExtractTags` always requests the adapter with the JSON response
format; it fails with a descriptive error exactly when the adapter is nil,
the adapter call fails, or the result is the empty string; otherwise it
returns the adapter's result unmodified. -/
theorem extractTags_contract (s : Store.ArticleStore) (content : String)
    (pt : Models.PlatformType) :
    ((Store.ExtractTags s content pt).2.all fun ev =>
        match ev with
        | .generated _ o => o.responseFormat == Models.ResponseFormatJSON
        | _ => true) = true ∧
    (match s.aiClient with
     | none => (Store.ExtractTags s content pt).1 = .error "AI client is not initialized"
     | some gen =>
       match gen (Store.extractTagsMessage content pt) (Store.jsonOpts s.cfg.maxToken) with
       | .error e => (Store.ExtractTags s content pt).1 = .error e
       | .ok resp =>
         if resp.isEmptyStr then
           (Store.ExtractTags s content pt).1 = .error "empty response content from AI client"
         else (Store.ExtractTags s content pt).1 = .ok resp) := by
  obtain ⟨ai, cfg⟩ := s
  cases ai with
  | none => exact ⟨rfl, rfl⟩
  | some gen =>
    cases hg : gen (Store.extractTagsMessage content pt) (Store.jsonOpts cfg.maxToken) with
    | error e =>
      refine ⟨?_, ?_⟩ <;> simp [Store.ExtractTags, hg] <;> rfl
    | ok resp =>
      cases he : resp.isEmptyStr with
      | true => refine ⟨?_, ?_⟩ <;> simp [Store.ExtractTags, hg, he] <;> rfl
      | false => refine ⟨?_, ?_⟩ <;> simp [Store.ExtractTags, hg, he] <;> rfl

/-- C9: a `Generate` call leaves the adapter's stored client handle and
default model untouched (the state-passing form returns the receiver
unchanged), a non-empty override resolves to the override for that call
only, and a subsequent call without an override on the post-call adapter
still resolves to the original default model — for both adapters. -/
theorem adapters_stateless_and_override_per_call
    (co : OpenAI.Client) (cg : Gemini.Client)
    (complete : OpenAI.ChatCompletionNewParams → Except String OpenAI.ChatCompletion)
    (fetch : String → Except String Bytes) (sniff : Bytes → String)
    (generateContent : String → List Gemini.Content → Gemini.GenerateContentConfig →
      Except String Gemini.GenerateContentResponse)
    (m1 : Models.AIChatMessage) (o1 o2 : Models.AIClientOptions)
    (hov : o1.model ≠ "") (hdef : o2.model = "") :
    (OpenAI.GenerateSt co complete m1 o1).2 = co ∧
    (Gemini.GenerateSt cg fetch sniff generateContent m1 o1).2 = cg ∧
    OpenAI.resolveModel co o1 = o1.model ∧
    Gemini.resolveModelName cg o1 = o1.model ∧
    OpenAI.resolveModel (OpenAI.GenerateSt co complete m1 o1).2 o2 = co.defaultModel ∧
    Gemini.resolveModelName (Gemini.GenerateSt cg fetch sniff generateContent m1 o1).2 o2 =
      cg.defaultModel := by
  refine ⟨rfl, rfl, ?_, ?_, ?_, ?_⟩ <;>
    simp [OpenAI.resolveModel, Gemini.resolveModelName, OpenAI.GenerateSt,
          Gemini.GenerateSt, hov, hdef]

/-- Witness for C9 with a concrete override followed by a default call. -/
theorem adapters_stateless_and_override_per_call_witness :
    (OpenAI.GenerateSt ⟨some (), "gpt-4o"⟩ (fun _ => .ok ⟨[⟨⟨"hi"⟩⟩]⟩)
        ⟨"", "t", []⟩ ⟨8, "model-override", "json"⟩).2 = ⟨some (), "gpt-4o"⟩ ∧
    (Gemini.GenerateSt ⟨some (), "gemini-2.5-flash"⟩ (fun _ => .ok [1])
        (fun _ => "image/png") (fun _ _ _ => .ok ⟨[]⟩)
        ⟨"", "t", []⟩ ⟨8, "model-override", "json"⟩).2 = ⟨some (), "gemini-2.5-flash"⟩ ∧
    OpenAI.resolveModel ⟨some (), "gpt-4o"⟩ ⟨8, "model-override", "json"⟩ =
      "model-override" ∧
    Gemini.resolveModelName ⟨some (), "gemini-2.5-flash"⟩ ⟨8, "model-override", "json"⟩ =
      "model-override" ∧
    OpenAI.resolveModel
      (OpenAI.GenerateSt ⟨some (), "gpt-4o"⟩ (fun _ => .ok ⟨[⟨⟨"hi"⟩⟩]⟩)
        ⟨"", "t", []⟩ ⟨8, "model-override", "json"⟩).2 ⟨8, "", "json"⟩ = "gpt-4o" ∧
    Gemini.resolveModelName
      (Gemini.GenerateSt ⟨some (), "gemini-2.5-flash"⟩ (fun _ => .ok [1])
        (fun _ => "image/png") (fun _ _ _ => .ok ⟨[]⟩)
        ⟨"", "t", []⟩ ⟨8, "model-override", "json"⟩).2 ⟨8, "", "json"⟩ =
      "gemini-2.5-flash" :=
  adapters_stateless_and_override_per_call ⟨some (), "gpt-4o"⟩
    ⟨some (), "gemini-2.5-flash"⟩ (fun _ => .ok ⟨[⟨⟨"hi"⟩⟩]⟩) (fun _ => .ok [1])
    (fun _ => "image/png") (fun _ _ _ => .ok ⟨[]⟩) ⟨"", "t", []⟩
    ⟨8, "model-override", "json"⟩ ⟨8, "", "json"⟩ (by decide) rfl

/-- The request-construction property claim C2 asserts of the OpenAI-shaped
adapter: a request with image references never carries an opaque URL part to
the provider (every reference having been resolved to inline bytes). -/
def openaiNeverSendsUrlParts : Prop :=
  ∀ (model : String) (message : Models.AIChatMessage) (opts : Models.AIClientOptions),
    message.imageUrls ≠ [] →
    (OpenAI.buildParams model message opts).messages.all (fun m =>
      match m with
      | .user parts => parts.all (fun p => !p.isImageUrl)
      | .system _ => true) = true

/-- Counterexample to C2: the OpenAI-shaped adapter places the image
reference itself, as a URL, into the outgoing request — it fetches no bytes
(client/openai/client.go builds `ImageContentPart` with `URL: url`). -/
theorem openai_sends_url_part_refuted : ¬ openaiNeverSendsUrlParts := by
  intro h
  have h2 := h "gpt-4o" ⟨"", "scan", ["https://x/img.jpg"]⟩
    ⟨1024, "", Models.ResponseFormatJSON⟩ (List.cons_ne_nil _ _)
  have h3 : (OpenAI.buildParams "gpt-4o" ⟨"", "scan", ["https://x/img.jpg"]⟩
      ⟨1024, "", Models.ResponseFormatJSON⟩).messages.all (fun m =>
        match m with
        | .user parts => parts.all (fun p => !p.isImageUrl)
        | .system _ => true) = false := rfl
  rw [h3] at h2
  exact Bool.false_ne_true h2

/-- C2 as amended: the Gemini-shaped adapter resolves every image reference
to fetched raw bytes plus a sniffed MIME type before the provider call, and
its request holds only text or inline-bytes parts; the OpenAI-shaped adapter
instead forwards every image reference as an image-URL part, unfetched. -/
theorem adapter_image_resolution
    (fetch : String → Except String Bytes) (sniff : Bytes → String)
    (message : Models.AIChatMessage) (parts : List Gemini.Part)
    (hok : Gemini.buildContentParts fetch sniff message = .ok parts) :
    (∀ u ∈ message.imageUrls, ∃ bs, fetch u = .ok bs ∧
      Gemini.Part.inlineData bs (sniff bs) ∈ parts) ∧
    (∀ p ∈ parts, (∃ s, p = Gemini.Part.text s) ∨
      ∃ bs mime, p = Gemini.Part.inlineData bs mime) ∧
    (∀ u ∈ message.imageUrls,
      OpenAI.ContentPart.imageUrl u ∈ OpenAI.userContentParts message) := by
  refine ⟨?_, ?_, ?_⟩
  · intro u hu
    simp only [Gemini.buildContentParts] at hok
    cases hd : Gemini.downloadParts fetch sniff message.imageUrls with
    | error e =>
      rw [hd] at hok
      exact absurd hok (by simp)
    | ok imgParts =>
      rw [hd] at hok
      injection hok with hok
      obtain ⟨bs, hb, hm⟩ := downloadParts_mem fetch sniff message.imageUrls imgParts hd u hu
      exact ⟨bs, hb, hok ▸ List.mem_append_right _ hm⟩
  · intro p _
    cases p with
    | text s => exact Or.inl ⟨s, rfl⟩
    | inlineData bs mime => exact Or.inr ⟨bs, mime, rfl⟩
  · intro u hu
    exact List.mem_append_right _ (List.mem_map_of_mem _ hu)

/-- Witness for C2's amended statement at a concrete fetch and message. -/
theorem adapter_image_resolution_witness :
    (∀ u ∈ (⟨"sys", "t", ["https://x/img.jpg"]⟩ : Models.AIChatMessage).imageUrls,
      ∃ bs, (fun _ => (.ok [1, 2, 3] : Except String Bytes)) u = .ok bs ∧
        Gemini.Part.inlineData bs ((fun _ => "image/png") bs) ∈
          [Gemini.Part.text "t", Gemini.Part.inlineData [1, 2, 3] "image/png"]) ∧
    (∀ p ∈ [Gemini.Part.text "t", Gemini.Part.inlineData [1, 2, 3] "image/png"],
      (∃ s, p = Gemini.Part.text s) ∨ ∃ bs mime, p = Gemini.Part.inlineData bs mime) ∧
    (∀ u ∈ (⟨"sys", "t", ["https://x/img.jpg"]⟩ : Models.AIChatMessage).imageUrls,
      OpenAI.ContentPart.imageUrl u ∈
        OpenAI.userContentParts ⟨"sys", "t", ["https://x/img.jpg"]⟩) :=
  adapter_image_resolution (fun _ => .ok [1, 2, 3]) (fun _ => "image/png")
    ⟨"sys", "t", ["https://x/img.jpg"]⟩
    [Gemini.Part.text "t", Gemini.Part.inlineData [1, 2, 3] "image/png"] rfl

/-- The response-handling property claim C3 asserts of the OpenAI-shaped
adapter: when the provider's top choice carries no text content, `Generate`
fails with a descriptive error. -/
def openaiFailsOnEmptyContent : Prop :=
  ∀ (c : OpenAI.Client)
    (complete : OpenAI.ChatCompletionNewParams → Except String OpenAI.ChatCompletion)
    (message : Models.AIChatMessage) (opts : Models.AIClientOptions)
    (resp : OpenAI.ChatCompletion) (choice : OpenAI.Choice) (rest : List OpenAI.Choice),
    complete (OpenAI.buildParams (OpenAI.resolveModel c opts) message opts) = .ok resp →
    resp.choices = choice :: rest → choice.message.content = "" →
    ∃ e, OpenAI.Generate c complete message opts = .error e

/-- Counterexample to C3: with an initialized handle and a provider response
whose sole choice has empty content, the OpenAI-shaped `Generate` returns
the empty string successfully — client/openai/client.go has no
empty-content check. -/
theorem openai_empty_content_not_failed : ¬ openaiFailsOnEmptyContent := by
  intro h
  obtain ⟨e, he⟩ := h ⟨some (), "gpt-4o"⟩ (fun _ => .ok ⟨[⟨⟨""⟩⟩]⟩) ⟨"", "hi", []⟩
    ⟨0, "", Models.ResponseFormatText⟩ ⟨[⟨⟨""⟩⟩]⟩ ⟨⟨""⟩⟩ [] rfl rfl rfl
  have h2 : OpenAI.Generate ⟨some (), "gpt-4o"⟩ (fun _ => .ok ⟨[⟨⟨""⟩⟩]⟩)
      ⟨"", "hi", []⟩ ⟨0, "", Models.ResponseFormatText⟩ = .ok "" := rfl
  rw [h2] at he
  exact Except.noConfusion he

/-- C3 as amended: the Gemini-shaped adapter fails on an uninitialized
handle, a failed fetch, a provider error, zero candidates and a nil-or-empty
top-candidate content, otherwise concatenating the text-bearing parts in
order with no separator and skipping non-text parts; the OpenAI-shaped
adapter fails on an uninitialized handle, a provider error and zero choices,
and otherwise returns the top choice's single content string as-is — with no
empty-content check. -/
theorem generate_response_handling
    (c : OpenAI.Client)
    (complete : OpenAI.ChatCompletionNewParams → Except String OpenAI.ChatCompletion)
    (cg : Gemini.Client) (fetch : String → Except String Bytes)
    (sniff : Bytes → String)
    (generateContent : String → List Gemini.Content → Gemini.GenerateContentConfig →
      Except String Gemini.GenerateContentResponse)
    (message : Models.AIChatMessage) (opts : Models.AIClientOptions) :
    (match c.client with
     | none => OpenAI.Generate c complete message opts =
         .error "openai client is not initialized"
     | some _ =>
       match complete (OpenAI.buildParams (OpenAI.resolveModel c opts) message opts) with
       | .error e => OpenAI.Generate c complete message opts = .error e
       | .ok resp =>
         match resp.choices with
         | [] => OpenAI.Generate c complete message opts =
             .error "empty response choices from OpenAI"
         | choice :: _ => OpenAI.Generate c complete message opts =
             .ok choice.message.content) ∧
    (match cg.client with
     | none => Gemini.Generate cg fetch sniff generateContent message opts =
         .error "gemini client is not initialized"
     | some _ =>
       match Gemini.buildContentParts fetch sniff message with
       | .error e => Gemini.Generate cg fetch sniff generateContent message opts = .error e
       | .ok contentParts =>
         match generateContent (Gemini.resolveModelName cg opts) [⟨contentParts, "user"⟩]
             (Gemini.buildConfig message opts) with
         | .error e => Gemini.Generate cg fetch sniff generateContent message opts =
             .error ("failed to generate content: " ++ e)
         | .ok resp =>
           match resp.candidates with
           | [] => Gemini.Generate cg fetch sniff generateContent message opts =
               .error "empty response from Gemini"
           | candidate :: _ =>
             match candidate.content with
             | none => Gemini.Generate cg fetch sniff generateContent message opts =
                 .error "empty content in Gemini response"
             | some content =>
               match content.parts with
               | [] => Gemini.Generate cg fetch sniff generateContent message opts =
                   .error "empty content in Gemini response"
               | _ :: _ => Gemini.Generate cg fetch sniff generateContent message opts =
                   .ok (Gemini.concatText content.parts)) := by
  constructor
  · obtain ⟨cl, dm⟩ := c
    cases cl with
    | none => rfl
    | some u =>
      cases hc : complete (OpenAI.buildParams
          (OpenAI.resolveModel ⟨some u, dm⟩ opts) message opts) with
      | error e => simp only [OpenAI.Generate, hc]
      | ok resp =>
        obtain ⟨choices⟩ := resp
        cases choices with
        | nil => simp only [OpenAI.Generate, hc]
        | cons choice rest => simp only [OpenAI.Generate, hc]
  · obtain ⟨cl, dm⟩ := cg
    cases cl with
    | none => rfl
    | some u =>
      cases hb : Gemini.buildContentParts fetch sniff message with
      | error e => simp only [Gemini.Generate, hb]
      | ok contentParts =>
        cases hg : generateContent (Gemini.resolveModelName ⟨some u, dm⟩ opts)
            [⟨contentParts, "user"⟩] (Gemini.buildConfig message opts) with
        | error e => simp only [Gemini.Generate, hb, hg]
        | ok resp =>
          obtain ⟨candidates⟩ := resp
          cases candidates with
          | nil => simp only [Gemini.Generate, hb, hg]
          | cons candidate rest =>
            obtain ⟨content⟩ := candidate
            cases content with
            | none => simp only [Gemini.Generate, hb, hg]
            | some content =>
              obtain ⟨parts, role⟩ := content
              cases parts with
              | nil => simp only [Gemini.Generate, hb, hg]
              | cons p ps => simp only [Gemini.Generate, hb, hg]
